import Mathlib

/-!  Verification development for the cibo_tilerlayer tiling engine.

A shallow embedding of `src/layers/gdal/cibotiler/tiling.py` and
`src/layers/gdal/cibotiler/resamplerhelper.py`.  Python floats are modelled
as exact rationals; numpy `uint8` storage is modelled as naturals reduced
modulo 256 (in general, modulo `maxOutVal + 1` for an unsigned output
sample type whose largest value is `maxOutVal`).  Raised Python exceptions
are modelled with `Except`.  The GDAL raster store and the native bilinear
kernel are external collaborators and appear as oracle parameters.  -/

namespace CiboTiler

/-- Python `int()` applied to a float: truncation toward zero. -/
def pyInt (q : ℚ) : ℤ := if 0 ≤ q then ⌊q⌋ else ⌈q⌉

/-- `numpy.round` / Python builtin `round`: round half to even. -/
def npRound (q : ℚ) : ℤ :=
  let f := ⌊q⌋
  if q - f < 1/2 then f
  else if 1/2 < q - f then f + 1
  else if f % 2 = 0 then f else f + 1

/-- Cast of a float into an unsigned output sample type with maximum value
`M` (e.g. `M = 255` for `numpy.uint8`): C truncation toward zero, then
wrap-around modulo `M + 1`. -/
def castOut (M : ℕ) (q : ℚ) : ℕ := ((pyInt q) % ((M : ℤ) + 1)).toNat

/-- A 2-d numpy array of pixel values, row major. -/
abbrev Mat := List (List ℚ)

/-- Indexing a 2-d array (out-of-range reads yield 0; valid runs of the
source never index out of range). -/
def matGet (m : Mat) (i j : ℕ) : ℚ := (m.getD i []).getD j 0

def padTo (n : ℕ) (row : List ℚ) : List ℚ :=
  row.take n ++ List.replicate (n - row.length) 0

/-- Force a matrix to the exact shape `rows × cols`.  Used to encode the
raster-store / kernel collaborator contract that a read or a resample
returns an array of the requested shape. -/
def conformMat (rows cols : ℕ) (m : Mat) : Mat :=
  (m.map (padTo cols)).take rows ++
    List.replicate (rows - m.length) (List.replicate cols 0)

/-! ## Web mercator tile extents (tiling.py lines 26-32 and 216-245) -/

def MERCATOR_TILE_SIZE : ℕ := 512

def MERCATOR_X_ORIGIN : ℚ := -20037508.342789244

def MERCATOR_Y_ORIGIN : ℚ := 20037508.342789244

/-- `getExtentforWebMTile(z, x, y)`: the projected extent
`(tlx, tly, brx, bry)` of a web mercator tile. -/
def getExtentforWebMTile (z x y : ℕ) : ℚ × ℚ × ℚ × ℚ :=
  let units_per_pixel : ℚ := 78271.516 / 2 ^ z
  let tile_size : ℚ := units_per_pixel * (MERCATOR_TILE_SIZE : ℚ)
  let tlx := MERCATOR_X_ORIGIN + tile_size * (x : ℚ)
  let tly := MERCATOR_Y_ORIGIN - tile_size * (y : ℚ)
  (tlx, tly, tlx + tile_size, tly - tile_size)

/-! ## Colormaps (tiling.py lines 248-281) -/

/-- A colormap: a `(4, K)` uint8 table.  `entry i j` is the value of channel
row `i` (0 = R, 1 = G, 2 = B, 3 = A) at column `j < K`. -/
structure ColorMap where
  K : ℕ
  entry : ℕ → ℕ → ℕ

/-- One element of the `intervals` argument: `((minVal, maxVal), rgba)`. -/
abbrev CMInterval := (ℕ × ℕ) × List ℕ

/-- One loop iteration of `createColorMapFromIntervals`:
`result[idx, minVal:maxVal] = col` for each `(idx, col)` in
`enumerate(rgba)`.  Stores reduce modulo 256 (uint8 table). -/
def cmWrite (e : ℕ → ℕ → ℕ) (iv : CMInterval) : ℕ → ℕ → ℕ := fun i j =>
  match iv.2.get? i with
  | some col => if iv.1.1 ≤ j ∧ j < iv.1.2 then col % 256 else e i j
  | none => e i j

/-- `createColorMapFromIntervals(intervals)`.  The table is allocated with
`numpy.empty`, i.e. uninitialized: `init` models the arbitrary junk bytes
(reduced mod 256, as uint8 memory holds bytes).  The table width is the
`maxVal` of the last interval; an empty interval list raises (IndexError),
modelled as `none`. -/
def createColorMapFromIntervals (init : ℕ → ℕ → ℕ) (intervals : List CMInterval) :
    Option ColorMap :=
  match intervals.getLast? with
  | none => none
  | some last => some ⟨last.1.2, intervals.foldl cmWrite (fun i j => init i j % 256)⟩

/-! ## Overviews (tiling.py lines 411-521) -/

/-- `OverviewInfo`: size and index of one resolution level. -/
structure OverviewInfo where
  xsize : ℕ
  ysize : ℕ
  fullrespixperpix : ℚ
  index : ℕ
  deriving DecidableEq, Repr

/-- The loop body of `OverviewManager.findBestOverview`: `selectedovi`
starts at the first (finest) level and advances while the level's
`fullrespixperpix` does not exceed the requirement. -/
def findBestLoop (sel : OverviewInfo) (rest : List OverviewInfo) (r : ℚ) :
    OverviewInfo :=
  match rest with
  | [] => sel
  | ovi :: more => if r < ovi.fullrespixperpix then sel else findBestLoop ovi more r

/-- `OverviewManager.findBestOverview(imgpixperwinpix)`.  The source indexes
`self.overviews[0]` unconditionally; an empty overview list would raise
(IndexError), modelled as `none`. -/
def findBestOverview (overviews : List OverviewInfo) (imgpixperwinpix : ℚ) :
    Option OverviewInfo :=
  match overviews with
  | [] => none
  | first :: rest => some (findBestLoop first rest imgpixperwinpix)

/-- Stable insertion of an element into a list sorted by descending pixel
area (Python's `list.sort(key=..., reverse=True)` is stable). -/
def insertByAreaDesc (x : OverviewInfo) : List OverviewInfo → List OverviewInfo
  | [] => [x]
  | y :: ys =>
    if y.xsize * y.ysize < x.xsize * x.ysize then x :: y :: ys
    else y :: insertByAreaDesc x ys

/-- Stable sort by descending pixel area (`sort(key=lambda ov: ov.xsize *
ov.ysize, reverse=True)`). -/
def sortByAreaDesc : List OverviewInfo → List OverviewInfo
  | [] => []
  | x :: xs => insertByAreaDesc x (sortByAreaDesc xs)

/-- `OverviewManager.loadOverviewInfo(ds, bands)`.  `bandOvSizes` holds, for
each band in `bands` in order, the `(XSize, YSize)` of each of its overviews
by overview index.  An overview index is kept only when every other band has
an overview of identical size at that index.  Level 0 is the full-resolution
image with `fullrespixperpix = 1`. -/
def loadOverviewInfo (rasterXSize rasterYSize : ℕ)
    (bandOvSizes : List (List (ℕ × ℕ))) : List OverviewInfo :=
  let full : OverviewInfo := ⟨rasterXSize, rasterYSize, 1, 0⟩
  let firstBand := bandOvSizes.headD []
  let others := bandOvSizes.tail
  let ovs := (List.range firstBand.length).filterMap (fun index =>
    match firstBand.get? index with
    | none => none
    | some ov =>
      if others.all (fun b => b.get? index = some ov) then
        some ⟨ov.1, ov.2, (rasterXSize : ℚ) / (ov.1 : ℚ), index + 1⟩
      else none)
  sortByAreaDesc (full :: ovs)

/-! ## Geotransforms and dataset metadata (tiling.py lines 524-578) -/

/-- A six-element GDAL affine geotransform. -/
structure GeoTransform where
  g0 : ℚ
  g1 : ℚ
  g2 : ℚ
  g3 : ℚ
  g4 : ℚ
  g5 : ℚ
  deriving DecidableEq, Repr

/-- `gdal.ApplyGeoTransform(gt, x, y)`. -/
def applyGeoTransform (gt : GeoTransform) (x y : ℚ) : ℚ × ℚ :=
  (gt.g0 + gt.g1 * x + gt.g2 * y, gt.g3 + gt.g4 * x + gt.g5 * y)

/-- Modelled from the spec: `gdal.InvGeoTransform` (GDAL, not in src) — the
inverse of the affine pixel→projected mapping, per the data model's
"six-element affine geotransform (pixel→projected) and its inverse". -/
def invGeoTransform (gt : GeoTransform) : GeoTransform :=
  let det := gt.g1 * gt.g5 - gt.g2 * gt.g4
  ⟨(gt.g2 * gt.g3 - gt.g0 * gt.g5) / det, gt.g5 / det, -gt.g2 / det,
   (gt.g0 * gt.g4 - gt.g1 * gt.g3) / det, -gt.g4 / det, gt.g1 / det⟩

/-- Modelled from the spec: the raster-store collaborator (GDAL dataset).
`readWindow band overviewIndex left top width height outWidth outHeight`
is the collaborator interface `readWindow` of the spec; `noData` is the
per-band nodata value; `bandOvSizes` the per-band overview sizes;
overview index 0 denotes the full-resolution band. -/
structure Dataset where
  RasterXSize : ℕ
  RasterYSize : ℕ
  RasterCount : ℕ
  geoTransform : GeoTransform
  noData : ℕ → Option ℚ
  bandOvSizes : ℕ → List (ℕ × ℕ)
  readWindow : ℕ → ℕ → ℤ → ℤ → ℤ → ℤ → ℕ → ℕ → Mat

/-- `band.ReadAsArray(left, top, w, h, outW, outH)`: the raster store
returns an array of exactly the requested output shape. -/
def dsRead (ds : Dataset) (band ovIndex : ℕ) (left top w h : ℤ)
    (outW outH : ℕ) : Mat :=
  conformMat outH outW (ds.readWindow band ovIndex left top w h outW outH)

/-- The `Metadata` object of tiling.py. -/
structure Metadata where
  RasterXSize : ℕ
  RasterYSize : ℕ
  RasterCount : ℕ
  transform : GeoTransform
  allIgnore : List (Option ℚ)
  overviews : List OverviewInfo
  tlx : ℚ
  tly : ℚ
  brx : ℚ
  bry : ℚ
  tInverse : GeoTransform

/-- `Metadata.__init__(ds)`. -/
def mkMetadata (ds : Dataset) : Metadata :=
  let transform := ds.geoTransform
  let corner1 := applyGeoTransform transform 0 0
  let corner2 := applyGeoTransform transform (ds.RasterXSize : ℚ) (ds.RasterYSize : ℚ)
  { RasterXSize := ds.RasterXSize
    RasterYSize := ds.RasterYSize
    RasterCount := ds.RasterCount
    transform := transform
    allIgnore := (List.range ds.RasterCount).map (fun n => ds.noData (n + 1))
    overviews := loadOverviewInfo ds.RasterXSize ds.RasterYSize
      ((List.range' 1 ds.RasterCount).map ds.bandOvSizes)
    tlx := corner1.1
    tly := corner1.2
    brx := corner2.1
    bry := corner2.2
    tInverse := invGeoTransform transform }

/-! ## Resampling (resamplerhelper.py) -/

/-- The signature shared by the resample methods: input array, output size
`(ysize, xsize)`, the four margin ("extra") values, and the nodata value. -/
abbrev ResampleFn := Mat → ℕ × ℕ → ℤ → ℤ → ℤ → ℤ → Option ℚ → Mat

/-- Modelled from the spec: the native bilinear kernel collaborator
(`resampler.bilinear`, a compiled module not in src) — "consumes a pixel
buffer plus a nodata value and returns a resized buffer" of the requested
`cols × rows` size. -/
abbrev KernelFn := Mat → Option ℚ → ℕ → ℕ → Mat

/-- `resamplerhelper.replicateArray`: nearest-neighbour replication with
margin-aware cropping. -/
def replicateArray : ResampleFn := fun arr outsize dspLeftExtra dspTopExtra
    dspRightExtra dspBottomExtra _ =>
  let ysize := outsize.1
  let xsize := outsize.2
  let nrows := arr.length
  let ncols := (arr.headD []).length
  let nRptsX : ℚ := ((xsize : ℚ) + (dspLeftExtra : ℚ) + (dspRightExtra : ℚ)) / (ncols : ℚ)
  let nRptsY : ℚ := ((ysize : ℚ) + (dspTopExtra : ℚ) + (dspBottomExtra : ℚ)) / (nrows : ℚ)
  let rowCount : ℤ := ⌈(nrows : ℚ) * nRptsY⌉
  let colCount : ℤ := ⌈(ncols : ℚ) * nRptsX⌉
  let outarr := (List.range (rowCount - dspBottomExtra - dspTopExtra).toNat).map
    (fun i => (List.range (colCount - dspRightExtra - dspLeftExtra).toNat).map
      (fun j =>
        matGet arr (pyInt (((dspTopExtra + i : ℤ) : ℚ) * ((nrows : ℚ) / (rowCount : ℚ)))).toNat
          (pyInt (((dspLeftExtra + j : ℤ) : ℚ) * ((ncols : ℚ) / (colCount : ℚ)))).toNat))
  (outarr.take ysize).map (List.take xsize)

/-- `resamplerhelper.bilinearResample`: interpolate over the padded buffer
via the native kernel, then crop away the margins. -/
def bilinearResample (kernel : KernelFn) : ResampleFn := fun arr outsize
    dspLeftExtra dspTopExtra dspRightExtra dspBottomExtra ignore =>
  let ysize := outsize.1
  let xsize := outsize.2
  let rowCount : ℤ := (ysize : ℤ) + dspTopExtra + dspBottomExtra
  let colCount : ℤ := (xsize : ℤ) + dspLeftExtra + dspRightExtra
  let outarr := conformMat rowCount.toNat colCount.toNat
    (kernel arr ignore colCount.toNat rowCount.toNat)
  ((outarr.drop dspTopExtra.toNat).take (rowCount - dspBottomExtra - dspTopExtra).toNat).map
    (fun row => (row.drop dspLeftExtra.toNat).take (colCount - dspRightExtra - dspLeftExtra).toNat)

/-- `resamplerhelper.RESAMPLE_METHODS`. -/
def RESAMPLE_METHODS (kernel : KernelFn) : List (String × ResampleFn) :=
  [("near", replicateArray), ("bilinear", bilinearResample kernel)]

/-- `MarginsForResample` (tiling.py lines 802-823).  For bilinear, each edge
takes as much of a 1-pixel margin as fits inside the (overview) band; for
nearest, all margins are 0.  Any other name raises in the source, but
`getRawImageChunk` has already validated membership in `RESAMPLE_METHODS`,
so that branch is unreachable and is modelled as the zero margins. -/
def marginsForResample (resampling : String) (ovleft ovtop ovxsize ovysize
    bandXSize bandYSize : ℤ) : ℤ × ℤ × ℤ × ℤ :=
  if resampling = "bilinear" then
    (min 1 ovleft, min 1 (bandXSize - (ovleft + ovxsize)),
     min 1 ovtop, min 1 (bandYSize - (ovtop + ovysize)))
  else (0, 0, 0, 0)

/-! ## Reading the raw chunk (tiling.py lines 581-799) -/

/-- `pixel2displayF`: pixel to display coordinates, float version. -/
def pixel2displayF (col row origCol origRow imgPixPerWinPix : ℚ) : ℚ × ℚ :=
  ((col - origCol) / imgPixPerWinPix, (row - origRow) / imgPixPerWinPix)

/-- `pixel2display`: pixel to display coordinates, truncating-int version. -/
def pixel2display (col row origCol origRow imgPixPerWinPix : ℚ) : ℤ × ℤ :=
  (pyInt ((col - origCol) / imgPixPerWinPix), pyInt ((row - origRow) / imgPixPerWinPix))

/-- The raster-pixel-space window of the requested bounds (tiling.py lines
681-688): `(origPixLeft, origPixTop, origPixRight, origPixBottom)`. -/
def origPixWindow (md : Metadata) (tlx tly brx bry : ℚ) : ℚ × ℚ × ℚ × ℚ :=
  let imgPix_x := (brx - tlx) / md.transform.g1
  let imgPix_y := (bry - tly) / md.transform.g5
  let orig := applyGeoTransform md.tInverse tlx tly
  (orig.1, orig.2, orig.1 + imgPix_x, orig.2 + imgPix_y)

/-- The errors the modelled pipeline can raise. -/
inductive TErr where
  | invalidBandCount
  | rescaleLengthMismatch
  | unknownResample
  | divisionByZero
  | bandOutOfRange
  | shapeMismatch
  | indexError
  deriving DecidableEq, Repr

set_option linter.unusedVariables false in
/-- `getRawImageChunk` (tiling.py lines 636-799).  Returns the number of
`ReadAsArray` calls performed, and either an error, or `none` when the
bounds are entirely outside the file, or the per-band data plus the
`(dspRastTop, dspRastLeft)` origin of the data slice inside the output
tile.  The four margin "extra" values are bound unconditionally here but,
as in the source, only consulted when `imgPixPerWinPix < 1`. -/
def getRawImageChunk (kernel : KernelFn) (ds : Dataset) (md : Metadata)
    (xsize ysize : ℕ) (tlx tly brx bry : ℚ) (bands : List ℕ)
    (resampling : String) : ℕ × Except TErr (Option (List Mat × ℤ × ℤ)) :=
  match (RESAMPLE_METHODS kernel).lookup resampling with
  | none => (0, .error .unknownResample)
  | some resampleMethod =>
    let w := origPixWindow md tlx tly brx bry
    let origPixLeft := w.1
    let origPixTop := w.2.1
    let origPixRight := w.2.2.1
    let origPixBottom := w.2.2.2
    let imgPixPerWinPix := (origPixRight - origPixLeft) / (xsize : ℚ)
    match findBestOverview md.overviews imgPixPerWinPix with
    | none => (0, .error .indexError)
    | some selectedovi =>
      if origPixTop < 0 ∧ origPixBottom < 0 then (0, .ok none)
      else if origPixLeft < 0 ∧ origPixRight < 0 then (0, .ok none)
      else if (md.RasterXSize : ℚ) < origPixLeft ∧ (md.RasterXSize : ℚ) < origPixRight then
        (0, .ok none)
      else if (md.RasterYSize : ℚ) < origPixTop ∧ (md.RasterYSize : ℚ) < origPixBottom then
        (0, .ok none)
      else
        let fullrespixperovpix := selectedovi.fullrespixperpix
        let pixTop := max origPixTop 0
        let pixLeft := max origPixLeft 0
        let pixBottom := min origPixBottom (md.RasterYSize : ℚ)
        let pixRight := min origPixRight (md.RasterXSize : ℚ)
        let ovtop := max (pyInt (pixTop / fullrespixperovpix)) 0
        let ovleft := max (pyInt (pixLeft / fullrespixperovpix)) 0
        let ovbottom := min ⌈pixBottom / fullrespixperovpix⌉ (selectedovi.ysize : ℤ)
        let ovright := min ⌈pixRight / fullrespixperovpix⌉ (selectedovi.xsize : ℤ)
        let ovxsize := ovright - ovleft
        let ovysize := ovbottom - ovtop
        let dspF1 := pixel2displayF pixLeft pixTop origPixLeft origPixTop imgPixPerWinPix
        let dspF2 := pixel2displayF pixRight pixBottom origPixLeft origPixTop imgPixPerWinPix
        let dspRastLeft := npRound dspF1.1
        let dspRastTop := npRound dspF1.2
        let dspRastRight := npRound dspF2.1
        let dspRastBottom := npRound dspF2.2
        let dspRastXSize := dspRastRight - dspRastLeft
        let dspRastYSize := dspRastBottom - dspRastTop
        let dspA1 := pixel2display ((⌊pixLeft⌋ : ℤ) : ℚ) ((⌊pixTop⌋ : ℤ) : ℚ)
          origPixLeft origPixTop imgPixPerWinPix
        let dspA2 := pixel2display ((⌈pixRight⌉ : ℤ) : ℚ) ((⌈pixBottom⌉ : ℤ) : ℚ)
          origPixLeft origPixTop imgPixPerWinPix
        let dspLeftExtra := pyInt (((dspRastLeft - dspA1.1 : ℤ) : ℚ) / fullrespixperovpix)
        let dspTopExtra := pyInt (((dspRastTop - dspA1.2 : ℤ) : ℚ) / fullrespixperovpix)
        let dspRightExtra := max (pyInt (((dspA2.1 - dspRastRight : ℤ) : ℚ) / fullrespixperovpix)) 0
        let dspBottomExtra := max (pyInt (((dspA2.2 - dspRastBottom : ℤ) : ℚ) / fullrespixperovpix)) 0
        let datalist := bands.map (fun bandnum =>
          if 1 ≤ imgPixPerWinPix then
            dsRead ds bandnum selectedovi.index ovleft ovtop ovxsize ovysize
              dspRastXSize.toNat dspRastYSize.toNat
          else
            let marg := marginsForResample resampling ovleft ovtop ovxsize ovysize
              (selectedovi.xsize : ℤ) (selectedovi.ysize : ℤ)
            let dataTmp := dsRead ds bandnum selectedovi.index
              (ovleft - marg.1) (ovtop - marg.2.2.1)
              (ovxsize + marg.1 + marg.2.1) (ovysize + marg.2.2.1 + marg.2.2.2)
              (ovxsize + marg.1 + marg.2.1).toNat (ovysize + marg.2.2.1 + marg.2.2.2).toNat
            let ignore := md.allIgnore.getD (bandnum - 1) none
            resampleMethod dataTmp (dspRastYSize.toNat, dspRastXSize.toNat)
              (dspLeftExtra + npRound ((marg.1 : ℚ) / imgPixPerWinPix))
              (dspTopExtra + npRound ((marg.2.2.1 : ℚ) / imgPixPerWinPix))
              (dspRightExtra + npRound ((marg.2.1 : ℚ) / imgPixPerWinPix))
              (dspBottomExtra + npRound ((marg.2.2.2 : ℚ) / imgPixPerWinPix))
              ignore)
        (bands.length, .ok (some (datalist, dspRastTop, dspRastLeft)))

/-! ## Rendering into the output MEM dataset (tiling.py lines 89-213) -/

/-- One band plane of the output MEM dataset (values of the unsigned output
sample type). -/
abbrev Plane := List (List ℕ)

/-- The output MEM dataset: `numOutBands` zero-initialized planes. -/
abbrev Tile := List Plane

/-- A boolean nodata mask. -/
abbrev Mask := List (List Bool)

def constPlane (tileSize v : ℕ) : Plane :=
  List.replicate tileSize (List.replicate tileSize v)

/-- `gdal.GetDriverByName('MEM').Create(...)`: zero-initialized planes. -/
def zeroTile (numOutBands tileSize : ℕ) : Tile :=
  List.replicate numOutBands (constPlane tileSize 0)

/-- `mem.GetRasterBand(idx).WriteArray(plane)` for a full-tile plane.  With
`gdal.UseExceptions()`, `GetRasterBand` raises for a band index outside
`1..numOutBands`. -/
def setBand (mem : Tile) (idx : ℕ) (p : Plane) : Except TErr Tile :=
  if 1 ≤ idx ∧ idx ≤ mem.length then .ok (mem.set (idx - 1) p)
  else .error .bandOutOfRange

/-- `mem.GetRasterBand(idx).Fill(v)`. -/
def fillBand (mem : Tile) (idx tileSize v : ℕ) : Except TErr Tile :=
  if 1 ≤ idx ∧ idx ≤ mem.length then .ok (mem.set (idx - 1) (constPlane tileSize v))
  else .error .bandOutOfRange

/-- The `data is None` branch of `getTile`: `for n in range(4):
mem.GetRasterBand(n + 1).Fill(0)` (the list argument is `[0, 1, 2, 3]`). -/
def fillLoop (tileSize : ℕ) : List ℕ → Tile → Except TErr Tile
  | [], mem => .ok mem
  | n :: rest, mem =>
    match fillBand mem (n + 1) tileSize 0 with
    | .error e => .error e
    | .ok mem2 => fillLoop tileSize rest mem2

/-- `imgData = numpy.zeros((tileSize, tileSize)); imgData[dataslice] = vals`:
a full-tile plane that is zero outside the data slice, whose top-left corner
is at display coordinates `(top, left)`, and holds `vals` inside it. -/
def imgPlane (tileSize : ℕ) (top left : ℤ) (vals : List (List ℕ)) : Plane :=
  (List.range tileSize).map (fun r => (List.range tileSize).map (fun c =>
    let row := vals.getD ((r : ℤ) - top).toNat []
    if top ≤ (r : ℤ) ∧ (r : ℤ) < top + vals.length ∧
        left ≤ (c : ℤ) ∧ (c : ℤ) < left + row.length then
      row.getD ((c : ℤ) - left).toNat 0
    else 0))

/-- `databand == nodataValue`, elementwise. -/
def matEqMask (m : Mat) (nv : ℚ) : Mask := m.map (List.map (fun v => decide (v = nv)))

/-- `nodataMask |= mask` with `None` start. -/
def accumMask (acc : Option Mask) (m : Mask) : Option Mask :=
  match acc with
  | none => some m
  | some a => some (a.zipWith (List.zipWith or) m)

/-- `numpy.where(nodataMask, 0, maxOutVal)` written at offset `(0, 0)` of a
zero-initialized alpha band (`WriteArray` writes an array of the mask's
shape at the band origin and leaves the rest untouched). -/
def alphaPlaneAt (mask : Mask) (maxOutVal tileSize : ℕ) : Plane :=
  (List.range tileSize).map (fun r => (List.range tileSize).map (fun c =>
    if r < mask.length ∧ c < (mask.getD r []).length then
      (if (mask.getD r []).getD c false then 0 else maxOutVal)
    else 0))

/-- The `if not alphaset` epilogue (tiling.py lines 204-210): fetch band 4
(raises if the MEM dataset has fewer than 4 bands), then write the nodata
alpha (or fill with the maximum value when no nodata mask was built). -/
def setAlpha (mem : Tile) (mask : Option Mask) (maxOutVal tileSize : ℕ) :
    Except TErr Tile :=
  match mask with
  | some m => setBand mem 4 (alphaPlaneAt m maxOutVal tileSize)
  | none => fillBand mem 4 tileSize maxOutVal

/-- The per-pixel value of the rescale branch (tiling.py lines 147-148 and
163-164): `(value - minVal).clip(min=0) * (maxOutVal / (maxVal - minVal))`,
then `.clip(min=0, max=maxOutVal)`. -/
def rescaleValue (minVal maxVal maxOutVal v : ℚ) : ℚ :=
  let minMaxRange := maxVal - minVal
  min (max (max (v - minVal) 0 * (maxOutVal / minMaxRange)) 0) maxOutVal

/-- The Rescale transform in the spec's words (§4.5): "per band,
`outputValue = clamp((value - min), 0, ∞) * (maxOutputValue / (max - min))`,
then clamp to `[0, maxOutputValue]`".  Comparand for the refinement claim. -/
def rescaleSpecValue (minVal maxVal maxOutputValue v : ℚ) : ℚ :=
  min (max (max (v - minVal) 0 * (maxOutputValue / (maxVal - minVal))) 0)
    maxOutputValue

/-- The rescaled band data, cast into the output sample type on assignment
into `imgData`. -/
def rescalePlaneVals (minVal maxVal : ℚ) (maxOutVal : ℕ) (databand : Mat) :
    List (List ℕ) :=
  databand.map (List.map (fun v =>
    castOut maxOutVal (rescaleValue minVal maxVal (maxOutVal : ℚ) v)))

/-- The `len(rescaling) == 1` loop of the rescale branch (tiling.py lines
138-156): the single `(minVal, maxVal)` pair applies to every band.  The
division `maxOutVal / minMaxRange` raises `ZeroDivisionError` when
`maxVal == minVal`. -/
def rescaleLoop1 (minVal maxVal : ℚ) (maxOutVal tileSize bandsLen : ℕ)
    (nodata : List (Option ℚ)) (mats : List Mat) (top left : ℤ) :
    List ℕ → Tile → Option Mask → Except TErr (Tile × Option Mask)
  | [], mem, mask => .ok (mem, mask)
  | n :: rest, mem, mask =>
    if maxVal - minVal = 0 then .error .divisionByZero
    else
      let databand := if 1 < bandsLen then mats.getD n [] else mats.getD 0 []
      match setBand mem (n + 1)
          (imgPlane tileSize top left (rescalePlaneVals minVal maxVal maxOutVal databand)) with
      | .error e => .error e
      | .ok mem2 =>
        let mask2 := match nodata.getD n none with
          | none => mask
          | some nv => accumMask mask (matEqMask databand nv)
        rescaleLoop1 minVal maxVal maxOutVal tileSize bandsLen nodata mats top left
          rest mem2 mask2

/-- The `len(rescaling) != 1` loop of the rescale branch (tiling.py lines
161-172), over `enumerate(rescaling)`. -/
def rescaleLoopN (maxOutVal tileSize : ℕ) (nodata : List (Option ℚ))
    (mats : List Mat) (top left : ℤ) :
    List (ℕ × ℚ × ℚ) → Tile → Option Mask → Except TErr (Tile × Option Mask)
  | [], mem, mask => .ok (mem, mask)
  | (n, minVal, maxVal) :: rest, mem, mask =>
    if maxVal - minVal = 0 then .error .divisionByZero
    else
      let databand := mats.getD n []
      match setBand mem (n + 1)
          (imgPlane tileSize top left (rescalePlaneVals minVal maxVal maxOutVal databand)) with
      | .error e => .error e
      | .ok mem2 =>
        let mask2 := match nodata.getD n none with
          | none => mask
          | some nv => accumMask mask (matEqMask databand nv)
        rescaleLoopN maxOutVal tileSize nodata mats top left rest mem2 mask2

/-- The rescale branch (tiling.py lines 137-172): one pair applies to all
bands; otherwise the pair count must equal the band count, else
`ValueError` — raised only here, after the raster chunk was read. -/
def applyRescale (rescaling : List (ℚ × ℚ)) (maxOutVal tileSize : ℕ)
    (bands : List ℕ) (nodata : List (Option ℚ)) (mats : List Mat)
    (top left : ℤ) (mem : Tile) : Except TErr (Tile × Option Mask) :=
  match rescaling with
  | [(minVal, maxVal)] =>
    rescaleLoop1 minVal maxVal maxOutVal tileSize bands.length nodata mats top left
      (List.range bands.length) mem none
  | _ =>
    if rescaling.length ≠ bands.length then .error .rescaleLengthMismatch
    else rescaleLoopN maxOutVal tileSize nodata mats top left rescaling.enum mem none

/-- The colormap lookup loop (tiling.py lines 179-182):
`imgData[dataslice] = colormap[n][data.clip(min=0, max=maxCol - 1)]` for the
four channel rows.  Pixel values index the uint8 table after clipping. -/
def cmLoop (cm : ColorMap) (tileSize : ℕ) (m : Mat) (top left : ℤ) :
    List ℕ → Tile → Except TErr Tile
  | [], mem => .ok mem
  | n :: rest, mem =>
    match setBand mem (n + 1) (imgPlane tileSize top left (m.map (List.map (fun v =>
        cm.entry n (pyInt (min (max v 0) ((cm.K : ℚ) - 1))).toNat)))) with
    | .error e => .error e
    | .ok mem2 => cmLoop cm tileSize m top left rest mem2

/-- The colormap branch (tiling.py lines 176-183).  The source uses `data`
directly as a 2-d array; when several bands were read the data is 3-d and
the assignment into the 2-d `imgData[dataslice]` fails to broadcast
(numpy `ValueError`), modelled as `shapeMismatch`. -/
def applyColormap (cm : ColorMap) (tileSize : ℕ) (mats : List Mat)
    (top left : ℤ) (mem : Tile) : Except TErr Tile :=
  match mats with
  | [m] => cmLoop cm tileSize m top left [0, 1, 2, 3] mem
  | _ => .error .shapeMismatch

/-- The pass-through branch loop (tiling.py lines 187-200): band values are
copied verbatim, cast into the output sample type on assignment. -/
def plainLoop (maxOutVal tileSize bandsLen : ℕ) (nodata : List (Option ℚ))
    (mats : List Mat) (top left : ℤ) :
    List ℕ → Tile → Option Mask → Except TErr (Tile × Option Mask)
  | [], mem, mask => .ok (mem, mask)
  | n :: rest, mem, mask =>
    let databand := if 1 < bandsLen then mats.getD n [] else mats.getD 0 []
    match setBand mem (n + 1)
        (imgPlane tileSize top left (databand.map (List.map (castOut maxOutVal)))) with
    | .error e => .error e
    | .ok mem2 =>
      let mask2 := match nodata.getD n none with
        | none => mask
        | some nv => accumMask mask (matEqMask databand nv)
      plainLoop maxOutVal tileSize bandsLen nodata mats top left rest mem2 mask2

/-- The band-list validation of `getTile` (tiling.py lines 100-103): `None`
selects every band `1..RasterCount` with no validation; an explicit list
must have length 1, 3 or 4, else `ValueError`. -/
def resolveBands (rasterCount : ℕ) (bands : Option (List ℕ)) :
    Except TErr (List ℕ) :=
  match bands with
  | none => .ok (List.range' 1 rasterCount)
  | some bs =>
    if bs.length ≠ 1 ∧ bs.length ≠ 3 ∧ bs.length ≠ 4 then .error .invalidBandCount
    else .ok bs

/-- `getTile` (tiling.py lines 35-213), up to the final image encoding
(`createBytesIOFromMEM`, an external encoder collaborator): returns the
number of raster reads performed and either the raised error or the
rendered output planes.  `maxOutVal` is `numpy.iinfo(outTileType).max`
(255 for the default `uint8`). -/
def getTile (kernel : KernelFn) (ds : Dataset) (z x y : ℕ)
    (bands : Option (List ℕ)) (rescaling : Option (List (ℚ × ℚ)))
    (colormap : Option ColorMap) (resampling : String)
    (tileSize maxOutVal : ℕ) : ℕ × Except TErr Tile :=
  let md := mkMetadata ds
  let ext := getExtentforWebMTile z x y
  match resolveBands ds.RasterCount bands with
  | .error e => (0, .error e)
  | .ok bandsList =>
    let numOutBands := if colormap.isSome then 4
      else if bandsList.length = 3 then 4 else bandsList.length
    let chunk := getRawImageChunk kernel ds md tileSize tileSize
      ext.1 ext.2.1 ext.2.2.1 ext.2.2.2 bandsList resampling
    let reads := chunk.1
    let nodataForBands := bandsList.map (fun n => md.allIgnore.getD (n - 1) none)
    match chunk.2 with
    | .error e => (reads, .error e)
    | .ok none => (reads, fillLoop tileSize [0, 1, 2, 3] (zeroTile numOutBands tileSize))
    | .ok (some (mats, top, left)) =>
      let mem := zeroTile numOutBands tileSize
      match rescaling with
      | some rs =>
        match applyRescale rs maxOutVal tileSize bandsList nodataForBands mats top left mem with
        | .error e => (reads, .error e)
        | .ok (mem2, mask) =>
          if 4 ≤ bandsList.length then (reads, .ok mem2)
          else (reads, setAlpha mem2 mask maxOutVal tileSize)
      | none =>
        match colormap with
        | some cm => (reads, applyColormap cm tileSize mats top left mem)
        | none =>
          match plainLoop maxOutVal tileSize bandsList.length nodataForBands mats top left
              (List.range bandsList.length) mem none with
          | .error e => (reads, .error e)
          | .ok (mem2, mask) =>
            if 4 ≤ bandsList.length then (reads, .ok mem2)
            else (reads, setAlpha mem2 mask maxOutVal tileSize)

deriving instance DecidableEq for Except

/-! ## Concrete test fixtures

A 4×4, 3-band dataset in web mercator whose geotransform places it exactly
over tile `(z, x, y) = (2, 0, 0)` at one raster pixel per tile pixel for
`tileSize = 4`: the tile at zoom 2 is `10018754.048` m wide, so the pixel
size is a quarter of that.  Every pixel of every band reads as 5; there are
no overviews and no nodata values. -/

/-- A trivial bilinear kernel oracle (never consulted in the concrete
scenarios below, which resolve to one raster pixel per tile pixel). -/
def k0 : KernelFn := fun arr _ _ _ => arr

def dsA : Dataset :=
  { RasterXSize := 4
    RasterYSize := 4
    RasterCount := 3
    geoTransform := ⟨MERCATOR_X_ORIGIN, 2504688.512, 0, MERCATOR_Y_ORIGIN, 0, -2504688.512⟩
    noData := fun _ => none
    bandOvSizes := fun _ => []
    readWindow := fun _ _ _ _ _ _ outW outH => List.replicate outH (List.replicate outW 5) }

/-- A small colormap whose contents are arbitrary. -/
def cmTest : ColorMap := ⟨5, fun _ _ => 9⟩

/-! ## Helper lemmas -/

theorem set_replicate_self {α : Type} (a : α) :
    ∀ (n i : ℕ), (List.replicate n a).set i a = List.replicate n a
  | 0, _ => by simp
  | n + 1, 0 => by simp [List.replicate_succ]
  | n + 1, i + 1 => by
    simp [List.replicate_succ, List.set, set_replicate_self a n i]

theorem insertByAreaDesc_ne_nil (x : OverviewInfo) (l : List OverviewInfo) :
    insertByAreaDesc x l ≠ [] := by
  cases l with
  | nil => simp [insertByAreaDesc]
  | cons y ys =>
    simp only [insertByAreaDesc]
    split <;> simp

theorem loadOverviewInfo_ne_nil (rx ry : ℕ) (l : List (List (ℕ × ℕ))) :
    loadOverviewInfo rx ry l ≠ [] := by
  simp only [loadOverviewInfo, sortByAreaDesc]
  exact insertByAreaDesc_ne_nil _ _

theorem findBestOverview_isSome {l : List OverviewInfo} (h : l ≠ []) (r : ℚ) :
    ∃ o, findBestOverview l r = some o := by
  cases l with
  | nil => exact absurd rfl h
  | cons f rest => exact ⟨findBestLoop f rest r, rfl⟩

section ClaimTheorems

attribute [local semireducible] Rat.ofScientific Rat.mul Rat.inv Rat.add Rat.sub

/-! ## C5: the rescale formula -/

/-- C5: for every pixel value `v`, rescale pair `(min, max)` with
`max ≠ min`, and output sample maximum `M`, the rescaled value of the code
equals `clamp(v - min, 0, ∞) * (M / (max - min))` clamped to `[0, M]` (the
spec's formula, `rescaleSpecValue`); concretely, with pair `(0, 1000)` and
`M = 255`, the stored output for input 500 is 127 (within the claim's
"127 or 128"), input 0 stores 0, and input 1500 clamps to 255. -/
theorem C5_rescaleFormula :
    (∀ minVal maxVal M v : ℚ, maxVal ≠ minVal →
      rescaleValue minVal maxVal M v = rescaleSpecValue minVal maxVal M v) ∧
    (castOut 255 (rescaleValue 0 1000 255 500) = 127 ∨
      castOut 255 (rescaleValue 0 1000 255 500) = 128) ∧
    castOut 255 (rescaleValue 0 1000 255 0) = 0 ∧
    castOut 255 (rescaleValue 0 1000 255 1500) = 255 := by
  refine ⟨fun minVal maxVal M v _ => rfl, ?_, ?_, ?_⟩
  · left
    decide
  · decide
  · decide

/-- Witness for C5: the general formula applied at the concrete pair
`(0, 1000)`, `M = 255`, `v = 500`, whose `max ≠ min` hypothesis holds. -/
theorem C5_rescaleFormula_witness :
    rescaleValue 0 1000 255 500 = rescaleSpecValue 0 1000 255 500 :=
  C5_rescaleFormula.1 0 1000 255 500 (by decide)

/-! ## C7: web mercator tile extents -/

/-- C7: for every zoom `z` and tile indices `x`, `y`,
`getExtentforWebMTile z x y` returns `(left, top, right, bottom)` with
`left = ORIGIN_X + (78271.516 / 2^z * 512) * x`,
`top = ORIGIN_Y - (78271.516 / 2^z * 512) * y`, `right = left + tileSize`,
`bottom = top - tileSize`; hence `right > left`, `top > bottom`, and the
projected width and height both equal `78271.516 / 2^z * 512`. -/
theorem C7_getExtentforWebMTile (z x y : ℕ) :
    (getExtentforWebMTile z x y).1 =
      MERCATOR_X_ORIGIN + (78271.516 / 2 ^ z * 512) * (x : ℚ) ∧
    (getExtentforWebMTile z x y).2.1 =
      MERCATOR_Y_ORIGIN - (78271.516 / 2 ^ z * 512) * (y : ℚ) ∧
    (getExtentforWebMTile z x y).2.2.1 =
      (getExtentforWebMTile z x y).1 + 78271.516 / 2 ^ z * 512 ∧
    (getExtentforWebMTile z x y).2.2.2 =
      (getExtentforWebMTile z x y).2.1 - 78271.516 / 2 ^ z * 512 ∧
    (getExtentforWebMTile z x y).1 < (getExtentforWebMTile z x y).2.2.1 ∧
    (getExtentforWebMTile z x y).2.2.2 < (getExtentforWebMTile z x y).2.1 ∧
    (getExtentforWebMTile z x y).2.2.1 - (getExtentforWebMTile z x y).1 =
      78271.516 / 2 ^ z * 512 ∧
    (getExtentforWebMTile z x y).2.1 - (getExtentforWebMTile z x y).2.2.2 =
      78271.516 / 2 ^ z * 512 := by
  have hpos : (0 : ℚ) < 78271.516 / 2 ^ z * 512 := by positivity
  have hext : getExtentforWebMTile z x y =
      (MERCATOR_X_ORIGIN + 78271.516 / 2 ^ z * 512 * (x : ℚ),
       MERCATOR_Y_ORIGIN - 78271.516 / 2 ^ z * 512 * (y : ℚ),
       MERCATOR_X_ORIGIN + 78271.516 / 2 ^ z * 512 * (x : ℚ) + 78271.516 / 2 ^ z * 512,
       MERCATOR_Y_ORIGIN - 78271.516 / 2 ^ z * 512 * (y : ℚ) - 78271.516 / 2 ^ z * 512) := by
    simp only [getExtentforWebMTile, MERCATOR_TILE_SIZE, Prod.mk.injEq]
    push_cast
    refine ⟨by ring, by ring, by ring, by ring⟩
  rw [hext]
  exact ⟨by ring, by ring, rfl, rfl, by simp [hpos], by simp [hpos], by ring, by ring⟩

/-! ## C8: default band selection -/

/-- C8: when the `bands` argument is `None`, every band `1..RasterCount` is
used with no band-count validation, so e.g. 2-band and 5-band datasets are
accepted; the 1/3/4 length check applies only to an explicit band list. -/
theorem C8_defaultBands :
    (∀ rasterCount, resolveBands rasterCount none = .ok (List.range' 1 rasterCount)) ∧
    resolveBands 2 none = .ok [1, 2] ∧
    resolveBands 5 none = .ok [1, 2, 3, 4, 5] ∧
    (∀ bs : List ℕ, ¬(bs.length = 1 ∨ bs.length = 3 ∨ bs.length = 4) →
      resolveBands 2 (some bs) = .error .invalidBandCount) := by
  refine ⟨fun _ => rfl, rfl, rfl, fun bs h => ?_⟩
  simp only [resolveBands]
  rw [if_pos]
  exact ⟨fun h1 => h (Or.inl h1), fun h3 => h (Or.inr (Or.inl h3)),
    fun h4 => h (Or.inr (Or.inr h4))⟩

/-- Witness for C8: the explicit-list check applied at a 2-element list. -/
theorem C8_defaultBands_witness :
    resolveBands 2 (some [7, 8]) = .error .invalidBandCount :=
  C8_defaultBands.2.2.2 [7, 8] (by decide)

/-! ## C4: overview selection -/

/-- The invariant of the `findBestOverview` loop, for a level list whose
`fullrespixperpix` values are pairwise nondecreasing (the order
`loadOverviewInfo` establishes by sorting by descending pixel area): the
result is a member; it is the coarsest level satisfying
`fullrespixperpix ≤ r` when one exists; and it is the initial (finest)
level when none does. -/
theorem findBestLoop_spec (r : ℚ) :
    ∀ (rest : List OverviewInfo) (sel : OverviewInfo),
    (sel :: rest).Pairwise (fun a b => a.fullrespixperpix ≤ b.fullrespixperpix) →
    findBestLoop sel rest r ∈ sel :: rest ∧
    ((∃ o ∈ sel :: rest, o.fullrespixperpix ≤ r) →
      (findBestLoop sel rest r).fullrespixperpix ≤ r) ∧
    (∀ o ∈ sel :: rest, o.fullrespixperpix ≤ r →
      o.fullrespixperpix ≤ (findBestLoop sel rest r).fullrespixperpix) ∧
    ((∀ o ∈ sel :: rest, ¬ o.fullrespixperpix ≤ r) → findBestLoop sel rest r = sel)
  | [], sel => by
    intro _
    refine ⟨by simp [findBestLoop], ?_, ?_, fun _ => rfl⟩
    · rintro ⟨o, ho, hle⟩
      simp only [List.mem_singleton] at ho
      simpa [findBestLoop, ho] using hle
    · intro o ho hle
      simp only [List.mem_singleton] at ho
      simp [findBestLoop, ho]
  | ovi :: more, sel => by
    intro hsorted
    have hsel : sel.fullrespixperpix ≤ ovi.fullrespixperpix :=
      (List.pairwise_cons.mp hsorted).1 ovi (by simp)
    have hseltail : ∀ o ∈ more, sel.fullrespixperpix ≤ o.fullrespixperpix :=
      fun o ho => (List.pairwise_cons.mp hsorted).1 o (by simp [ho])
    have htail : (ovi :: more).Pairwise
        (fun a b => a.fullrespixperpix ≤ b.fullrespixperpix) :=
      (List.pairwise_cons.mp hsorted).2
    have hovitail : ∀ o ∈ more, ovi.fullrespixperpix ≤ o.fullrespixperpix :=
      fun o ho => (List.pairwise_cons.mp htail).1 o ho
    by_cases hbreak : r < ovi.fullrespixperpix
    · have hres : findBestLoop sel (ovi :: more) r = sel := by
        simp [findBestLoop, hbreak]
      refine ⟨by simp [hres], ?_, ?_, fun _ => hres⟩
      · rintro ⟨o, ho, hle⟩
        simp only [List.mem_cons] at ho
        rcases ho with ho | ho | ho
        · rw [hres]
          rw [ho] at hle
          exact hle
        · rw [ho] at hle
          exact absurd hle (not_le.mpr hbreak)
        · exact absurd hle
            (not_le.mpr (lt_of_lt_of_le hbreak (hovitail o ho)))
      · intro o ho hle
        simp only [List.mem_cons] at ho
        rcases ho with ho | ho | ho
        · rw [hres, ho]
        · rw [ho] at hle
          exact absurd hle (not_le.mpr hbreak)
        · exact absurd hle
            (not_le.mpr (lt_of_lt_of_le hbreak (hovitail o ho)))
    · have hok : ovi.fullrespixperpix ≤ r := not_lt.mp hbreak
      have hres : findBestLoop sel (ovi :: more) r = findBestLoop ovi more r := by
        simp [findBestLoop, hbreak]
      obtain ⟨ihmem, ihsat, ihmax, ihnone⟩ := findBestLoop_spec r more ovi htail
      refine ⟨by rw [hres]; exact List.mem_cons_of_mem sel ihmem, ?_, ?_, ?_⟩
      · intro _
        rw [hres]
        exact ihsat ⟨ovi, by simp, hok⟩
      · intro o ho hle
        rw [hres]
        simp only [List.mem_cons] at ho
        rcases ho with ho | ho
        · rw [ho]
          exact le_trans hsel (ihmax ovi (by simp) hok)
        · exact ihmax o (List.mem_cons.mpr ho) hle
      · intro hnone
        exact absurd hok (hnone ovi (by simp))

/-- C4 (amended): on a level list sorted so that `fullrespixperpix` is
pairwise nondecreasing, `findBestOverview r` returns the coarsest level
whose `fullrespixperpix` does not exceed `r` when such a level exists, and
otherwise the finest (first, full-resolution) level — not the coarsest;
when the dataset has no overviews, `loadOverviewInfo` yields only the
full-resolution level and `findBestOverview` returns it. -/
theorem C4_findBestOverview (f : OverviewInfo) (rest : List OverviewInfo) (r : ℚ)
    (hsorted : (f :: rest).Pairwise
      (fun a b => a.fullrespixperpix ≤ b.fullrespixperpix)) :
    (∃ res, findBestOverview (f :: rest) r = some res ∧ res ∈ f :: rest ∧
      ((∃ o ∈ f :: rest, o.fullrespixperpix ≤ r) →
        (res.fullrespixperpix ≤ r ∧
          ∀ o ∈ f :: rest, o.fullrespixperpix ≤ r →
            o.fullrespixperpix ≤ res.fullrespixperpix)) ∧
      ((∀ o ∈ f :: rest, ¬ o.fullrespixperpix ≤ r) → res = f)) ∧
    (∀ rx ry : ℕ, loadOverviewInfo rx ry [[]] = [⟨rx, ry, 1, 0⟩] ∧
      findBestOverview (loadOverviewInfo rx ry [[]]) r = some ⟨rx, ry, 1, 0⟩) := by
  obtain ⟨hmem, hsat, hmax, hnone⟩ := findBestLoop_spec r rest f hsorted
  refine ⟨⟨findBestLoop f rest r, rfl, hmem,
    fun hex => ⟨hsat hex, hmax⟩, hnone⟩, fun rx ry => ?_⟩
  have hload : loadOverviewInfo rx ry [[]] = [⟨rx, ry, 1, 0⟩] := by
    simp [loadOverviewInfo, sortByAreaDesc, insertByAreaDesc]
  exact ⟨hload, by rw [hload]; rfl⟩

/-- C4 counterexample: levels `⟨100,100,1,0⟩` (full resolution) and
`⟨50,50,2,1⟩` as loaded by `loadOverviewInfo`, requirement `r = 1/2`.  No
level has `fullrespixperpix ≤ 1/2`, so the claim requires the coarsest
available level `⟨50,50,2,1⟩`; the code returns the full-resolution level
`⟨100,100,1,0⟩` instead. -/
theorem C4_counterexample :
    loadOverviewInfo 100 100 [[(50, 50)]] =
      [⟨100, 100, 1, 0⟩, ⟨50, 50, 2, 1⟩] ∧
    findBestOverview [⟨100, 100, 1, 0⟩, ⟨50, 50, 2, 1⟩] (1/2) =
      some ⟨100, 100, 1, 0⟩ ∧
    ¬ ((⟨100, 100, 1, 0⟩ : OverviewInfo).fullrespixperpix ≤ 1/2) ∧
    ¬ ((⟨50, 50, 2, 1⟩ : OverviewInfo).fullrespixperpix ≤ 1/2) ∧
    (⟨100, 100, 1, 0⟩ : OverviewInfo) ≠ ⟨50, 50, 2, 1⟩ := by
  refine ⟨by decide, by decide, by decide, by decide, by decide⟩

/-- Witness for C4: the amended theorem applied to the concrete sorted
levels `[⟨4,4,1,0⟩, ⟨2,2,2,1⟩]` with `r = 3`: both levels satisfy the
requirement and the coarsest one, `⟨2,2,2,1⟩`, is returned. -/
theorem C4_findBestOverview_witness :
    findBestOverview [⟨4, 4, 1, 0⟩, ⟨2, 2, 2, 1⟩] 3 = some ⟨2, 2, 2, 1⟩ ∧
    (⟨2, 2, 2, 1⟩ : OverviewInfo).fullrespixperpix ≤ 3 := by
  obtain ⟨⟨res, hres, _, hsat, _⟩, _⟩ :=
    C4_findBestOverview ⟨4, 4, 1, 0⟩ [⟨2, 2, 2, 1⟩] 3 (by decide)
  have hcomp : findBestOverview [⟨4, 4, 1, 0⟩, ⟨2, 2, 2, 1⟩] 3 =
      some ⟨2, 2, 2, 1⟩ := by decide
  have hres2 : res = ⟨2, 2, 2, 1⟩ := by
    rw [hcomp] at hres
    exact (Option.some.injEq _ _ ▸ hres).symm
  obtain ⟨h1, _⟩ := hsat ⟨⟨4, 4, 1, 0⟩, by simp, by decide⟩
  exact ⟨hcomp, hres2 ▸ h1⟩

/-! ## C6: colormap built from intervals -/

theorem cmWrite_eq_of_not_cov (e : ℕ → ℕ → ℕ) (iv : CMInterval) (i j : ℕ)
    (h : ¬(iv.1.1 ≤ j ∧ j < iv.1.2)) : cmWrite e iv i j = e i j := by
  simp only [cmWrite]
  cases hg : iv.2.get? i with
  | none => rfl
  | some col => simp [h]

theorem cmFold_eq_of_not_cov (i j : ℕ) :
    ∀ (ivs : List CMInterval) (e : ℕ → ℕ → ℕ),
    (∀ iv ∈ ivs, ¬(iv.1.1 ≤ j ∧ j < iv.1.2)) →
    (ivs.foldl cmWrite e) i j = e i j
  | [], _, _ => rfl
  | iv :: rest, e, h => by
    simp only [List.foldl_cons]
    rw [cmFold_eq_of_not_cov i j rest (cmWrite e iv)
      (fun p hp => h p (List.mem_cons_of_mem iv hp))]
    exact cmWrite_eq_of_not_cov e iv i j (h iv (by simp))

theorem cmFold_lt_256 (i j : ℕ) :
    ∀ (ivs : List CMInterval) (e : ℕ → ℕ → ℕ), (∀ a b, e a b < 256) →
    (ivs.foldl cmWrite e) i j < 256
  | [], _, h => h i j
  | iv :: rest, e, h => by
    simp only [List.foldl_cons]
    refine cmFold_lt_256 i j rest (cmWrite e iv) ?_
    intro a b
    simp only [cmWrite]
    cases hg : iv.2.get? a with
    | none => exact h a b
    | some col =>
      dsimp only
      by_cases hcov : iv.1.1 ≤ b ∧ b < iv.1.2
      · rw [if_pos hcov]
        omega
      · rw [if_neg hcov]
        exact h a b

/-- C6: `createColorMapFromIntervals`, on a nonempty interval list sorted so
that each interval ends no later than the next begins, returns a table whose
width `K` is the `max` of the last interval, in which each interval fills
columns `[min, max)` of each channel row `i` with its color (reduced mod
256, as the table is uint8), and every entry of the uint8 table is below
256, i.e. in `[0, 255]`. -/
theorem C6_createColorMapFromIntervals (init : ℕ → ℕ → ℕ)
    (intervals : List CMInterval) (last : CMInterval)
    (hlast : intervals.getLast? = some last)
    (hsorted : intervals.Pairwise (fun a b => a.1.2 ≤ b.1.1)) :
    ∃ cm, createColorMapFromIntervals init intervals = some cm ∧
      cm.K = last.1.2 ∧ (∀ i j, cm.entry i j < 256) ∧
      (∀ pre iv post i j c, intervals = pre ++ iv :: post →
        iv.2.get? i = some c → iv.1.1 ≤ j → j < iv.1.2 →
        cm.entry i j = c % 256) := by
  refine ⟨⟨last.1.2, intervals.foldl cmWrite (fun a b => init a b % 256)⟩,
    ?_, rfl, ?_, ?_⟩
  · simp [createColorMapFromIntervals, hlast]
  · intro i j
    exact cmFold_lt_256 i j intervals _ (fun a b => by omega)
  · intro pre iv post i j c hsplit hget hmin hmax
    subst hsplit
    rw [List.foldl_append]
    simp only [List.foldl_cons]
    have hpost : ∀ p ∈ post, ¬(p.1.1 ≤ j ∧ j < p.1.2) := by
      intro p hp hcov
      have hsub : (iv :: post).Pairwise (fun a b => a.1.2 ≤ b.1.1) :=
        hsorted.sublist (List.sublist_append_right pre (iv :: post))
      have hlep : iv.1.2 ≤ p.1.1 := (List.pairwise_cons.mp hsub).1 p hp
      omega
    rw [cmFold_eq_of_not_cov i j post _ hpost]
    simp only [cmWrite]
    rw [hget]
    simp [hmin, hmax]

/-- Witness for C6: a sorted two-interval colormap
`[((0,2), [10,20,30,40]), ((2,5), [50,60,70,255])]` over junk memory 300:
the table is 5 wide, column 1 of row 0 holds 10, column 4 of row 3 holds
255. -/
theorem C6_createColorMapFromIntervals_witness :
    ∃ cm, createColorMapFromIntervals (fun _ _ => 300)
        [((0, 2), [10, 20, 30, 40]), ((2, 5), [50, 60, 70, 255])] = some cm ∧
      cm.K = 5 ∧ cm.entry 0 1 = 10 ∧ cm.entry 3 4 = 255 := by
  obtain ⟨cm, hcm, hK, _, hfill⟩ := C6_createColorMapFromIntervals
    (fun _ _ => 300) [((0, 2), [10, 20, 30, 40]), ((2, 5), [50, 60, 70, 255])]
    ((2, 5), [50, 60, 70, 255]) (by decide) (by decide)
  refine ⟨cm, hcm, hK, ?_, ?_⟩
  · have h01 := hfill [] ((0, 2), [10, 20, 30, 40]) [((2, 5), [50, 60, 70, 255])]
      0 1 10 rfl rfl (by decide) (by decide)
    simpa using h01
  · have h34 := hfill [((0, 2), [10, 20, 30, 40])] ((2, 5), [50, 60, 70, 255]) []
      3 4 255 rfl rfl (by decide) (by decide)
    simpa using h34

/-! ## Pipeline lemmas -/

theorem RESAMPLE_METHODS_lookup_none (kernel : KernelFn) (resampling : String)
    (h1 : resampling ≠ "near") (h2 : resampling ≠ "bilinear") :
    (RESAMPLE_METHODS kernel).lookup resampling = none := by
  simp only [RESAMPLE_METHODS, List.lookup]
  rw [show (resampling == "near") = false by simpa using h1,
    show (resampling == "bilinear") = false by simpa using h2]

theorem getRawImageChunk_unknown (kernel : KernelFn) (ds : Dataset) (md : Metadata)
    (xs ys : ℕ) (tlx tly brx bry : ℚ) (bands : List ℕ) (resampling : String)
    (h1 : resampling ≠ "near") (h2 : resampling ≠ "bilinear") :
    getRawImageChunk kernel ds md xs ys tlx tly brx bry bands resampling =
      (0, .error .unknownResample) := by
  simp only [getRawImageChunk]
  rw [RESAMPLE_METHODS_lookup_none kernel resampling h1 h2]

theorem getTile_invalidBandCount (kernel : KernelFn) (ds : Dataset) (z x y : ℕ)
    (bs : List ℕ) (rescaling : Option (List (ℚ × ℚ))) (colormap : Option ColorMap)
    (resampling : String) (ts M : ℕ)
    (h : ¬(bs.length = 1 ∨ bs.length = 3 ∨ bs.length = 4)) :
    getTile kernel ds z x y (some bs) rescaling colormap resampling ts M =
      (0, .error .invalidBandCount) := by
  have hres : resolveBands ds.RasterCount (some bs) = .error .invalidBandCount := by
    simp only [resolveBands]
    rw [if_pos (by tauto)]
  simp only [getTile]
  rw [hres]

theorem getTile_unknownResample (kernel : KernelFn) (ds : Dataset) (z x y : ℕ)
    (bands : Option (List ℕ)) (rescaling : Option (List (ℚ × ℚ)))
    (colormap : Option ColorMap) (resampling : String) (ts M : ℕ) (bl : List ℕ)
    (hres : resolveBands ds.RasterCount bands = .ok bl)
    (h1 : resampling ≠ "near") (h2 : resampling ≠ "bilinear") :
    getTile kernel ds z x y bands rescaling colormap resampling ts M =
      (0, .error .unknownResample) := by
  simp only [getTile]
  rw [hres]
  dsimp only
  rw [getRawImageChunk_unknown kernel ds (mkMetadata ds) ts ts _ _ _ _ bl
    resampling h1 h2]

set_option maxHeartbeats 1000000 in
theorem getRawImageChunk_outside (kernel : KernelFn) (ds : Dataset) (md : Metadata)
    (xs ys : ℕ) (tlx tly brx bry : ℚ) (bands : List ℕ) (resampling : String)
    (f : ResampleFn) (hf : (RESAMPLE_METHODS kernel).lookup resampling = some f)
    (hov : md.overviews ≠ [])
    (hout :
      ((origPixWindow md tlx tly brx bry).2.1 < 0 ∧
        (origPixWindow md tlx tly brx bry).2.2.2 < 0) ∨
      ((origPixWindow md tlx tly brx bry).1 < 0 ∧
        (origPixWindow md tlx tly brx bry).2.2.1 < 0) ∨
      ((md.RasterXSize : ℚ) < (origPixWindow md tlx tly brx bry).1 ∧
        (md.RasterXSize : ℚ) < (origPixWindow md tlx tly brx bry).2.2.1) ∨
      ((md.RasterYSize : ℚ) < (origPixWindow md tlx tly brx bry).2.1 ∧
        (md.RasterYSize : ℚ) < (origPixWindow md tlx tly brx bry).2.2.2)) :
    getRawImageChunk kernel ds md xs ys tlx tly brx bry bands resampling =
      (0, .ok none) := by
  obtain ⟨o, ho⟩ := findBestOverview_isSome hov
    (((origPixWindow md tlx tly brx bry).2.2.1 -
      (origPixWindow md tlx tly brx bry).1) / (xs : ℚ))
  simp only [getRawImageChunk]
  rw [hf, ho]
  split_ifs with h1 h2 h3 h4 <;> first | rfl | tauto

theorem fillLoop_zeroTile (ts nb : ℕ) :
    ∀ l : List ℕ, (∀ n ∈ l, n + 1 ≤ nb) →
    fillLoop ts l (zeroTile nb ts) = .ok (zeroTile nb ts)
  | [], _ => rfl
  | n :: rest, h => by
    simp only [fillLoop, fillBand]
    rw [if_pos ⟨Nat.le_add_left 1 n, by
      simpa [zeroTile] using h n (List.mem_cons_self n rest)⟩]
    rw [show (zeroTile nb ts).set (n + 1 - 1) (constPlane ts 0) = zeroTile nb ts from
      set_replicate_self _ nb _]
    exact fillLoop_zeroTile ts nb rest (fun m hm => h m (List.mem_cons_of_mem n hm))

theorem setBand_error (mem : Tile) (i : ℕ) (p : Plane) (e : TErr)
    (h : setBand mem i p = .error e) : e = .bandOutOfRange := by
  simp only [setBand] at h
  split at h
  · exact absurd h (by simp)
  · exact (Except.error.injEq _ _ ▸ h).symm

theorem rescaleLoop1_ne_div (minVal maxVal : ℚ) (M ts bL : ℕ)
    (nodata : List (Option ℚ)) (mats : List Mat) (top left : ℤ)
    (h : maxVal - minVal ≠ 0) :
    ∀ (idxs : List ℕ) (mem : Tile) (mask : Option Mask),
    rescaleLoop1 minVal maxVal M ts bL nodata mats top left idxs mem mask ≠
      .error .divisionByZero
  | [], mem, mask => by simp [rescaleLoop1]
  | n :: rest, mem, mask => by
    simp only [rescaleLoop1]
    rw [if_neg h]
    cases hs : setBand mem (n + 1) (imgPlane ts top left (rescalePlaneVals minVal maxVal M
        (if 1 < bL then mats.getD n [] else mats.getD 0 []))) with
    | error e =>
      have he := setBand_error _ _ _ _ hs
      simp [he]
    | ok mem2 =>
      exact rescaleLoop1_ne_div minVal maxVal M ts bL nodata mats top left h rest mem2 _

theorem rescaleLoopN_ne_div (M ts : ℕ) (nodata : List (Option ℚ))
    (mats : List Mat) (top left : ℤ) :
    ∀ (pairs : List (ℕ × ℚ × ℚ)), (∀ p ∈ pairs, p.2.2 - p.2.1 ≠ 0) →
    ∀ (mem : Tile) (mask : Option Mask),
    rescaleLoopN M ts nodata mats top left pairs mem mask ≠ .error .divisionByZero
  | [], _, mem, mask => by simp [rescaleLoopN]
  | (n, minVal, maxVal) :: rest, h, mem, mask => by
    simp only [rescaleLoopN]
    rw [if_neg (h (n, minVal, maxVal) (List.mem_cons_self _ _))]
    cases hs : setBand mem (n + 1)
        (imgPlane ts top left (rescalePlaneVals minVal maxVal M (mats.getD n []))) with
    | error e =>
      have he := setBand_error _ _ _ _ hs
      simp [he]
    | ok mem2 =>
      exact rescaleLoopN_ne_div M ts nodata mats top left rest
        (fun p hp => h p (List.mem_cons_of_mem _ hp)) mem2 _

theorem applyRescale_ne_div (rescaling : List (ℚ × ℚ)) (M ts : ℕ) (bands : List ℕ)
    (nodata : List (Option ℚ)) (mats : List Mat) (top left : ℤ) (mem : Tile)
    (h : ∀ p ∈ rescaling, p.2 - p.1 ≠ 0) :
    applyRescale rescaling M ts bands nodata mats top left mem ≠
      .error .divisionByZero := by
  match rescaling, h with
  | [], h =>
    simp only [applyRescale]
    split
    · simp
    · simpa [List.enum] using rescaleLoopN_ne_div M ts nodata mats top left []
        (by simp) mem none
  | [(minVal, maxVal)], h =>
    exact rescaleLoop1_ne_div minVal maxVal M ts bands.length nodata mats top left
      (h (minVal, maxVal) (by simp)) (List.range bands.length) mem none
  | p1 :: p2 :: rest, h =>
    simp only [applyRescale]
    split
    · simp
    · refine rescaleLoopN_ne_div M ts nodata mats top left _ ?_ mem none
      intro q hq
      have hget : (p1 :: p2 :: rest).get? q.1 = some q.2 :=
        List.mem_enum_iff_get?.mp hq
      exact h q.2 (List.get?_mem hget)

theorem applyRescale_div (m : ℚ) (M ts : ℕ) (bands : List ℕ)
    (nodata : List (Option ℚ)) (mats : List Mat) (top left : ℤ) (mem : Tile)
    (hb : bands ≠ []) :
    applyRescale [(m, m)] M ts bands nodata mats top left mem =
      .error .divisionByZero := by
  obtain ⟨k, hk⟩ : ∃ k, bands.length = k + 1 := by
    cases bands with
    | nil => exact absurd rfl hb
    | cons b bs => exact ⟨bs.length, by simp⟩
  simp only [applyRescale, hk, List.range_succ_eq_map]
  simp [rescaleLoop1, sub_self]

/-! ## C1: band-list validation -/

/-- C1 counterexample: a colormap together with a 3-element band list is
*not* rejected: on a tile entirely outside the raster this call returns a
well-formed transparent tile instead of raising `InvalidBandCount`. -/
theorem C1_counterexample :
    getTile k0 dsA 2 2 0 (some [1, 2, 3]) none (some cmTest) "near" 4 255 =
      (0, .ok (zeroTile 4 4)) := by decide

/-- C1 (amended): `getTile` accepts an explicit band list exactly when its
length is 1, 3 or 4, and raises `ValueError` (`InvalidBandCount`) exactly
otherwise; no colormap-specific band-count validation exists — the
validation does not consult the colormap, so a colormap with a 3-band list
passes it (and, when no data overlaps the tile, even yields a tile). -/
theorem C1_bandValidation :
    (∀ rasterCount bs, resolveBands rasterCount (some bs) = .ok bs ↔
      (bs.length = 1 ∨ bs.length = 3 ∨ bs.length = 4)) ∧
    (∀ rasterCount bs,
      resolveBands rasterCount (some bs) = .error .invalidBandCount ↔
      ¬(bs.length = 1 ∨ bs.length = 3 ∨ bs.length = 4)) ∧
    (getTile k0 dsA 2 2 0 (some [1, 2, 3]) none (some cmTest) "near" 4 255).2 ≠
      .error .invalidBandCount := by
  refine ⟨fun rasterCount bs => ?_, fun rasterCount bs => ?_, by decide⟩
  · by_cases h : bs.length = 1 ∨ bs.length = 3 ∨ bs.length = 4
    · simp only [resolveBands]
      rw [if_neg (by tauto)]
      exact ⟨fun _ => h, fun _ => rfl⟩
    · simp only [resolveBands]
      rw [if_pos (by tauto)]
      exact ⟨fun heq => absurd heq (by simp), fun hlen => absurd hlen h⟩
  · by_cases h : bs.length = 1 ∨ bs.length = 3 ∨ bs.length = 4
    · simp only [resolveBands]
      rw [if_neg (by tauto)]
      exact ⟨fun heq => absurd heq (by simp), fun hn => absurd h hn⟩
    · simp only [resolveBands]
      rw [if_pos (by tauto)]
      exact ⟨fun _ => h, fun _ => rfl⟩

/-! ## C2: fail-fast validation -/

/-- C2 counterexample: a mismatched rescale-pairs length (2 pairs for 3
bands) is raised only *after* the raster windows are read: the call below
performs 3 `ReadAsArray` reads and then raises — not 0 reads as the
fail-fast claim requires. -/
theorem C2_counterexample :
    getTile k0 dsA 2 0 0 (some [1, 2, 3]) (some [(0, 10), (0, 20)]) none
      "near" 4 255 = (3, .error .rescaleLengthMismatch) ∧ (3 : ℕ) ≠ 0 := by
  exact ⟨by decide, by decide⟩

/-- C2 (amended): an invalid band count and an unknown resampling method
are raised before any raster read (read count 0), but a rescale-pairs
length mismatch is raised only after the per-band raster reads have been
performed (read count 3 in the concrete overlapping scenario). -/
theorem C2_failFast :
    (∀ (kernel : KernelFn) (ds : Dataset) (z x y : ℕ) (bs : List ℕ) rescaling
      colormap resampling (ts M : ℕ),
      ¬(bs.length = 1 ∨ bs.length = 3 ∨ bs.length = 4) →
      getTile kernel ds z x y (some bs) rescaling colormap resampling ts M =
        (0, .error .invalidBandCount)) ∧
    (∀ (kernel : KernelFn) (ds : Dataset) (z x y : ℕ) bands rescaling colormap
      resampling (ts M : ℕ) (bl : List ℕ),
      resolveBands ds.RasterCount bands = .ok bl →
      resampling ≠ "near" → resampling ≠ "bilinear" →
      getTile kernel ds z x y bands rescaling colormap resampling ts M =
        (0, .error .unknownResample)) ∧
    getTile k0 dsA 2 0 0 (some [1, 2, 3]) (some [(0, 10), (0, 20)]) none
      "near" 4 255 = (3, .error .rescaleLengthMismatch) := by
  refine ⟨?_, ?_, by decide⟩
  · intro kernel ds z x y bs rescaling colormap resampling ts M h
    exact getTile_invalidBandCount kernel ds z x y bs rescaling colormap
      resampling ts M h
  · intro kernel ds z x y bands rescaling colormap resampling ts M bl hres h1 h2
    exact getTile_unknownResample kernel ds z x y bands rescaling colormap
      resampling ts M bl hres h1 h2

/-- Witness for C2: the fail-fast halves applied at concrete invalid
parameters — a 2-element band list, and the unknown method "cubic". -/
theorem C2_failFast_witness :
    getTile k0 dsA 2 0 0 (some [1, 2]) none none "near" 4 255 =
      (0, .error .invalidBandCount) ∧
    getTile k0 dsA 2 0 0 (some [1, 2, 3]) none none "cubic" 4 255 =
      (0, .error .unknownResample) :=
  ⟨C2_failFast.1 k0 dsA 2 0 0 [1, 2] none none "near" 4 255 (by decide),
   C2_failFast.2.1 k0 dsA 2 0 0 (some [1, 2, 3]) none none "cubic" 4 255
     [1, 2, 3] (by decide) (by decide) (by decide)⟩

/-! ## C3: tiles entirely outside the raster -/

/-- C3 counterexample: a single-band request (without colormap) on a tile
entirely to the right of the raster *fails*: the zero-fill branch
unconditionally fetches output bands 1..4, and the MEM dataset has only 1
band, so `GetRasterBand` raises instead of returning a transparent tile. -/
theorem C3_counterexample :
    getTile k0 dsA 2 2 0 (some [1]) none none "near" 4 255 =
      (0, .error .bandOutOfRange) := by decide

/-- C3 (amended): for a request whose output has at least 4 bands (a
colormap, a 3-band list, or a ≥4-band list), a tile whose pixel-space
window lies entirely above, below, left or right of the raster (each
cardinal case independently) yields, with no raster read, the well-formed
all-zero (fully transparent) tile of the requested size; requests with
fewer than 4 output bands instead fail in the zero-fill loop
(`C3_counterexample`). -/
theorem C3_outsideTransparent (kernel : KernelFn) (ds : Dataset) (z x y : ℕ)
    (bands : Option (List ℕ)) (rescaling : Option (List (ℚ × ℚ)))
    (colormap : Option ColorMap) (resampling : String) (ts M : ℕ)
    (bl : List ℕ) (f : ResampleFn)
    (hres : resolveBands ds.RasterCount bands = .ok bl)
    (hf : (RESAMPLE_METHODS kernel).lookup resampling = some f)
    (hnb : colormap.isSome = true ∨ bl.length = 3 ∨ 4 ≤ bl.length)
    (hout :
      ((origPixWindow (mkMetadata ds) (getExtentforWebMTile z x y).1
          (getExtentforWebMTile z x y).2.1 (getExtentforWebMTile z x y).2.2.1
          (getExtentforWebMTile z x y).2.2.2).2.1 < 0 ∧
        (origPixWindow (mkMetadata ds) (getExtentforWebMTile z x y).1
          (getExtentforWebMTile z x y).2.1 (getExtentforWebMTile z x y).2.2.1
          (getExtentforWebMTile z x y).2.2.2).2.2.2 < 0) ∨
      ((origPixWindow (mkMetadata ds) (getExtentforWebMTile z x y).1
          (getExtentforWebMTile z x y).2.1 (getExtentforWebMTile z x y).2.2.1
          (getExtentforWebMTile z x y).2.2.2).1 < 0 ∧
        (origPixWindow (mkMetadata ds) (getExtentforWebMTile z x y).1
          (getExtentforWebMTile z x y).2.1 (getExtentforWebMTile z x y).2.2.1
          (getExtentforWebMTile z x y).2.2.2).2.2.1 < 0) ∨
      (((mkMetadata ds).RasterXSize : ℚ) <
          (origPixWindow (mkMetadata ds) (getExtentforWebMTile z x y).1
            (getExtentforWebMTile z x y).2.1 (getExtentforWebMTile z x y).2.2.1
            (getExtentforWebMTile z x y).2.2.2).1 ∧
        ((mkMetadata ds).RasterXSize : ℚ) <
          (origPixWindow (mkMetadata ds) (getExtentforWebMTile z x y).1
            (getExtentforWebMTile z x y).2.1 (getExtentforWebMTile z x y).2.2.1
            (getExtentforWebMTile z x y).2.2.2).2.2.1) ∨
      (((mkMetadata ds).RasterYSize : ℚ) <
          (origPixWindow (mkMetadata ds) (getExtentforWebMTile z x y).1
            (getExtentforWebMTile z x y).2.1 (getExtentforWebMTile z x y).2.2.1
            (getExtentforWebMTile z x y).2.2.2).2.1 ∧
        ((mkMetadata ds).RasterYSize : ℚ) <
          (origPixWindow (mkMetadata ds) (getExtentforWebMTile z x y).1
            (getExtentforWebMTile z x y).2.1 (getExtentforWebMTile z x y).2.2.1
            (getExtentforWebMTile z x y).2.2.2).2.2.2)) :
    getTile kernel ds z x y bands rescaling colormap resampling ts M =
      (0, .ok (zeroTile
        (if colormap.isSome then 4 else if bl.length = 3 then 4 else bl.length)
        ts)) := by
  have hov : (mkMetadata ds).overviews ≠ [] := loadOverviewInfo_ne_nil _ _ _
  have hchunk := getRawImageChunk_outside kernel ds (mkMetadata ds) ts ts
    (getExtentforWebMTile z x y).1 (getExtentforWebMTile z x y).2.1
    (getExtentforWebMTile z x y).2.2.1 (getExtentforWebMTile z x y).2.2.2
    bl resampling f hf hov hout
  have h4 : 4 ≤ (if colormap.isSome then 4 else
      if bl.length = 3 then 4 else bl.length) := by
    rcases hnb with h | h | h
    · simp [h]
    · simp [h]
    · split_ifs <;> omega
  simp only [getTile]
  rw [hres]
  dsimp only
  rw [hchunk]
  dsimp only
  rw [fillLoop_zeroTile ts _ [0, 1, 2, 3] (by
    intro n hn
    fin_cases hn <;> omega)]

/-- Witness for C3: the concrete 3-band request on a tile entirely to the
right of `dsA` yields the 4-band transparent tile. -/
theorem C3_outsideTransparent_witness :
    getTile k0 dsA 2 2 0 (some [1, 2, 3]) none none "near" 4 255 =
      (0, .ok (zeroTile 4 4)) := by
  have h := C3_outsideTransparent k0 dsA 2 2 0 (some [1, 2, 3]) none none
    "near" 4 255 [1, 2, 3] replicateArray (by decide) rfl
    (by decide) (by decide)
  simpa using h

/-! ## C9: division by zero in the rescale branch -/

/-- C9: the rescale computation divides by `max - min` with no guard:
whenever every rescale pair satisfies `max ≠ min` the rescale branch never
raises the division error (the division-by-zero branch is unreachable),
while a single pair with `max = min` makes the rescale branch (and hence
`getTile`, after its 3 raster reads in the concrete scenario) fail with
`ZeroDivisionError` — which is not one of the validation errors. -/
theorem C9_rescaleDivision :
    (∀ (rescaling : List (ℚ × ℚ)) (M ts : ℕ) (bands : List ℕ) nodata mats top
      left mem, (∀ p ∈ rescaling, p.2 - p.1 ≠ 0) →
      applyRescale rescaling M ts bands nodata mats top left mem ≠
        .error .divisionByZero) ∧
    (∀ (m : ℚ) (M ts : ℕ) (bands : List ℕ) nodata mats top left mem,
      bands ≠ [] →
      applyRescale [(m, m)] M ts bands nodata mats top left mem =
        .error .divisionByZero) ∧
    getTile k0 dsA 2 0 0 (some [1, 2, 3]) (some [(5, 5)]) none "near" 4 255 =
      (3, .error .divisionByZero) ∧
    TErr.divisionByZero ≠ TErr.invalidBandCount ∧
    TErr.divisionByZero ≠ TErr.rescaleLengthMismatch := by
  refine ⟨?_, ?_, by decide, by decide, by decide⟩
  · intro rescaling M ts bands nodata mats top left mem h
    exact applyRescale_ne_div rescaling M ts bands nodata mats top left mem h
  · intro m M ts bands nodata mats top left mem hb
    exact applyRescale_div m M ts bands nodata mats top left mem hb

/-- Witness for C9: both halves at concrete inputs — the pair `(0, 10)`
never yields the division error, the pair `(5, 5)` always does. -/
theorem C9_rescaleDivision_witness :
    applyRescale [(0, 10)] 255 4 [1] [none] [[[5]]] 0 0 (zeroTile 1 4) ≠
      .error .divisionByZero ∧
    applyRescale [(5, 5)] 255 4 [1] [none] [[[5]]] 0 0 (zeroTile 1 4) =
      .error .divisionByZero :=
  ⟨C9_rescaleDivision.1 [(0, 10)] 255 4 [1] [none] [[[5]]] 0 0 (zeroTile 1 4)
      (by decide),
   C9_rescaleDivision.2.1 5 255 4 [1] [none] [[[5]]] 0 0 (zeroTile 1 4)
      (by decide)⟩

/-! ## C10: rescaling takes precedence over colormap -/

/-- C10: when both a rescaling specification and a colormap are supplied,
no error arises from the combination: the rescale branch runs and the
colormap's contents are never consulted — the result is identical for any
two colormaps, and the concrete both-supplied call returns the
rescale-branch tile. -/
theorem C10_rescalePrecedence :
    (∀ (kernel : KernelFn) (ds : Dataset) (z x y : ℕ) bands
      (rs : List (ℚ × ℚ)) (cm1 cm2 : ColorMap) resampling (ts M : ℕ),
      getTile kernel ds z x y bands (some rs) (some cm1) resampling ts M =
      getTile kernel ds z x y bands (some rs) (some cm2) resampling ts M) ∧
    getTile k0 dsA 2 0 0 (some [1, 2, 3]) (some [(0, 10)]) (some cmTest)
      "near" 4 255 =
      (3, .ok [constPlane 4 127, constPlane 4 127, constPlane 4 127,
        constPlane 4 255]) := by
  exact ⟨fun _ _ _ _ _ _ _ _ _ _ _ _ => rfl, by decide⟩

end ClaimTheorems

end CiboTiler
